import Mathlib

set_option maxRecDepth 10000
set_option exponentiation.threshold 2000

/-!
Shallow embedding of `claim.go` (package main of the follow-claim repository).

Conventions used throughout:
* Go's `(string, error)` return pairs become `Except String String`
  (`Except.ok` is the spec's `Success`, `Except.error` the spec's `Failure`);
  the carried `String` on the error side is the Go `err.Error()` text.
* The outcome of an outbound HTTP round trip (`c.HTTPClient.Do(req)`) is an
  input of the embedded function: `TransportResult.ok` carries the response,
  `TransportResult.netErr` carries the transport error text.
* `json.NewDecoder(body).Decode(&result)` into a `map[string]interface{}`
  succeeds exactly when the body is valid JSON whose top level is an object;
  `Body.obj` models that case (the decoded fields, in document order) and
  `Body.bad` models every other body, carrying the decoder's error text.
* Side effects on the push sink (`sendToBark`) are made explicit: functions
  return, next to their result, the list of webhook payload bodies posted to
  the Bark URL during the call (empty when `BarkURL` is unconfigured, since
  `sendToBark` returns before building the request in that case).
-/

/-!
Exact model of the IEEE-754 binary64 (`float64`) values and operations the
program uses. A finite double is represented by its exact value, an
unnormalized fraction (integer numerator over positive natural denominator);
`roundB64` is round-to-nearest, ties-to-even, with unbounded exponent range
(faithful throughout the normal range; no claim input approaches overflow or
the subnormal range). Go's `strconv.ParseFloat`, float division and `%f`
formatting are all correctly rounded, so exact fraction arithmetic composed
with `roundB64` reproduces them bit-for-bit on these inputs.
-/

/-- An unnormalized fraction `num / den`. Every constructor below keeps `den`
positive; fractions are compared by cross-multiplication, so no gcd
normalization is ever needed. -/
structure Q where
  num : ℤ
  den : ℕ
deriving DecidableEq

/-- The fraction `n / 1`. -/
def Q.ofInt (n : ℤ) : Q := ⟨n, 1⟩

/-- Product of fractions. -/
def Q.mul (a b : Q) : Q := ⟨a.num * b.num, a.den * b.den⟩

/-- Negation of a fraction. -/
def Q.neg (a : Q) : Q := ⟨-a.num, a.den⟩

/-- Absolute value of a fraction. -/
def Q.abs (a : Q) : Q := ⟨(a.num.natAbs : ℤ), a.den⟩

/-- Quotient of fractions (the divisor must be nonzero, which holds at every
use site). -/
def Q.div (a b : Q) : Q :=
  if b.num < 0 then ⟨-(a.num * b.den), a.den * b.num.natAbs⟩
  else ⟨a.num * b.den, a.den * b.num.natAbs⟩

/-- Strict comparison of fractions by cross-multiplication. -/
def Q.blt (a b : Q) : Bool := decide (a.num * b.den < b.num * a.den)

/-- Non-strict comparison of fractions by cross-multiplication. -/
def Q.ble (a b : Q) : Bool := decide (a.num * b.den ≤ b.num * a.den)

/-- Round a fraction to the nearest integer, ties to even (`Int.fdiv` and
`Int.fmod` are floor division and its non-negative remainder). -/
def roundTiesEven (q : Q) : ℤ :=
  let n := q.num.fdiv q.den
  let r := q.num.fmod q.den
  if 2 * r < (q.den : ℤ) then n
  else if (q.den : ℤ) < 2 * r then n + 1
  else if n % 2 = 0 then n else n + 1

/-- Number of base-2 digits of `n`; for `n ≥ 1` this is `⌊log2 n⌋ + 1`. -/
def bitLen (n : ℕ) : ℕ := (Nat.toDigits 2 n).length

/-- `2 ^ e` as a fraction, for an integer exponent. -/
def pow2Q (e : ℤ) : Q :=
  if 0 ≤ e then ⟨((2 ^ e.toNat : ℕ) : ℤ), 1⟩ else ⟨1, 2 ^ (-e).toNat⟩

/-- `10 ^ e` as a fraction, for an integer exponent. -/
def pow10Q (e : ℤ) : Q :=
  if 0 ≤ e then ⟨((10 ^ e.toNat : ℕ) : ℤ), 1⟩ else ⟨1, 10 ^ (-e).toNat⟩

/-- Binary exponent of a positive fraction: the integer `e` with
`2 ^ e ≤ q < 2 ^ (e + 1)`. Bit lengths of numerator and denominator give a
first guess accurate to within one; comparisons settle it. -/
def qexp (q : Q) : ℤ :=
  let e0 : ℤ := (bitLen q.num.toNat : ℤ) - (bitLen q.den : ℤ)
  if Q.blt q (pow2Q e0) then e0 - 1
  else if Q.ble (pow2Q (e0 + 1)) q then e0 + 1
  else e0

/-- Round a positive fraction to the nearest binary64 value (53-bit
significand), ties to even, unbounded exponent. -/
def roundB64Pos (q : Q) : Q :=
  let s := pow2Q (qexp q - 52)
  Q.mul (Q.ofInt (roundTiesEven (Q.div q s))) s

/-- Round a fraction to the nearest binary64 value. -/
def roundB64 (q : Q) : Q :=
  if q.num = 0 then ⟨0, 1⟩
  else if q.num < 0 then Q.neg (roundB64Pos (Q.neg q))
  else roundB64Pos q

/-- Left-pad a digit string with zeros to six characters. -/
def pad6 (s : String) : String :=
  String.mk (List.replicate (6 - s.length) '0') ++ s

/-- Go `fmt.Sprintf("%f", x)` for a non-negative double `x` (represented by
its exact value): decimal fixed-point with six fractional digits, correctly
rounded (ties to even on the decimal expansion). -/
def goFormatF6pos (q : Q) : String :=
  let n := (roundTiesEven (Q.mul q ⟨1000000, 1⟩)).toNat
  Nat.repr (n / 1000000) ++ "." ++ pad6 (Nat.repr (n % 1000000))

/-- Go `fmt.Sprintf("%f", x)` for a double `x` given by its exact value. -/
def goFormatF6 (q : Q) : String :=
  if q.num < 0 then "-" ++ goFormatF6pos (Q.neg q) else goFormatF6pos q

/-- Render a signed integer the way Go's `fmt` does (`%v`/`%d`). -/
def goFmtInt (n : ℤ) : String :=
  if n < 0 then "-" ++ Nat.repr n.natAbs else Nat.repr n.natAbs

/-- Go `fmt.Sprintf("%+d", n)`: always-signed decimal. -/
def goFmtPlusInt (n : ℤ) : String :=
  if n < 0 then "-" ++ Nat.repr n.natAbs else "+" ++ Nat.repr n.natAbs

/-- Strip trailing zeros (and a then-trailing point) from a fixed-point
rendering: `"1.500000"` becomes `"1.5"`. -/
def trimZeros (s : String) : String :=
  let r := s.data.reverse.dropWhile (· = '0')
  let r' := match r with
    | '.' :: t => t
    | _ => r
  String.mk r'.reverse

/-- Go `%v` of a `float64` (given by its exact value): an integral value
prints as a plain integer; otherwise Go prints the shortest round-tripping
decimal, approximated here by trimmed fixed-point rendering (no claim input
reaches this branch, every `message` field exercised is a string). -/
def goFmtNum (q : Q) : String :=
  if q.num.fmod q.den = 0 then goFmtInt (q.num.fdiv q.den)
  else trimZeros (goFormatF6 q)

/-- A decoded JSON value, as produced by Go's `encoding/json` into
`interface{}`: `null`, booleans, numbers (Go decodes every JSON number into a
`float64`; the field stores its exact value), strings, arrays
(`[]interface{}`) and objects (`map[string]interface{}`, fields kept in
document order). -/
inductive Json where
  | null : Json
  | bool (b : Bool) : Json
  | num (q : Q) : Json
  | str (s : String) : Json
  | arr (elems : List Json) : Json
  | obj (fields : List (String × Json)) : Json

/-- Body of an HTTP response, as seen through `Decode(&map[string]interface{})`:
either a decodable top-level JSON object, or anything else (invalid JSON or a
non-object top level), carrying the decode error text. -/
inductive Body where
  | obj (fields : List (String × Json)) : Body
  | bad (errText : String) : Body

/-- An HTTP response: status code and body. -/
structure HttpResponse where
  status : ℕ
  body : Body

/-- Outcome of `c.HTTPClient.Do(req)`: a response, or a transport-level error
(connection failure, timeout, ...) with its `err.Error()` text. -/
inductive TransportResult where
  | ok (resp : HttpResponse) : TransportResult
  | netErr (errText : String) : TransportResult

/-- Mirror of the Go `Config` struct (claim.go lines 32-40). `TimeZoneOffset`
is an `int` in Go; machine-word overflow never matters for it here, so it is
embedded as `ℤ`. -/
structure Config where
  Cookie : String
  UserID : String
  BarkURL : String
  TelegramToken : String
  TelegramChatID : String
  ScheduledTime : String
  TimeZoneOffset : ℤ

/-- Go map lookup `fields[key]` on a decoded JSON object. Duplicate keys do
not arise from `encoding/json` decoding (later fields overwrite earlier ones
while decoding; the lists used here carry each key once), so first-match
lookup is faithful. Returns `none` when the key is absent, which Go reports
as an untyped `nil`. -/
def jlookup (fields : List (String × Json)) (key : String) : Option Json :=
  List.lookup key fields

/-- Insert a rendered key/value pair into a list sorted by key (Go's `fmt`
prints maps with keys in sorted order). -/
def insertPair (p : String × String) : List (String × String) → List (String × String)
  | [] => [p]
  | q :: t => if p.1 < q.1 then p :: q :: t else q :: insertPair p t

/-- Sort rendered key/value pairs by key (insertion sort). -/
def sortStrPairs : List (String × String) → List (String × String)
  | [] => []
  | p :: t => insertPair p (sortStrPairs t)

mutual

/-- Go `fmt`'s `%v` rendering of a decoded JSON value. Strings print bare,
`nil` prints `<nil>`, booleans print `true`/`false`, arrays print
`[e1 e2 ...]`, maps print `map[k1:v1 k2:v2]` with keys sorted. -/
def goFmtJson : Json → String
  | .null => "<nil>"
  | .bool b => if b then "true" else "false"
  | .num q => goFmtNum q
  | .str s => s
  | .arr l => "[" ++ String.intercalate " " (goFmtJsonList l) ++ "]"
  | .obj f =>
      "map[" ++ String.intercalate " "
        ((sortStrPairs (goFmtJsonFields f)).map (fun kv => kv.1 ++ ":" ++ kv.2)) ++ "]"

/-- `%v`-render each element of a decoded JSON array. -/
def goFmtJsonList : List Json → List String
  | [] => []
  | j :: t => goFmtJson j :: goFmtJsonList t

/-- `%v`-render the values of a decoded JSON object, keeping keys. -/
def goFmtJsonFields : List (String × Json) → List (String × String)
  | [] => []
  | (k, v) :: t => (k, goFmtJson v) :: goFmtJsonFields t

end

/-- `%v` of an untyped value that may be absent: Go prints `nil` (missing map
key) as `<nil>`. -/
def goFmtValue (v : Option Json) : String :=
  match v with
  | none => "<nil>"
  | some j => goFmtJson j

/-- `sendToBark` (claim.go lines 96-130): posts `{"body": message}` to the
configured Bark webhook; returns immediately, posting nothing, when
`BarkURL` is empty. The value is the list of webhook bodies posted (the
delivery outcome is only logged and has no further effect). -/
def sendToBark (c : Config) (message : String) : List String :=
  if c.BarkURL = "" then [] else [message]

/-- `signFollow` (claim.go lines 147-189), with the HTTP round trip supplied
as the `t` argument. The request construction (CSRF payload, headers, cookie)
only shapes the outbound request and is absorbed into `t`; `json.Marshal` of a
`map[string]string` and `http.NewRequestWithContext` with a constant method
and URL cannot fail. First component: the Go `(string, error)` result.
Second component: the Bark webhook bodies posted during the call. -/
def signFollow (c : Config) (t : TransportResult) : Except String String × List String :=
  match t with
  | .netErr e =>
      (Except.error ("failed to send claim request: " ++ e),
       sendToBark c ("Follow: Error: " ++ e))
  | .ok resp =>
      if resp.status ≠ 200 then
        match resp.body with
        | .bad derr =>
            (Except.error ("claim failed with status " ++ Nat.repr resp.status ++
              " and error: " ++ derr), [])
        | .obj fields =>
            let message := "Claim Points Failed: " ++ goFmtValue (jlookup fields "message")
            (Except.error message, sendToBark c message)
      else
        (Except.ok "Claim Points Success", sendToBark c "Claim Points Success")

/-- Value of a list of decimal digit characters. -/
def digitsToNat (l : List Char) : ℕ :=
  l.foldl (fun acc c => 10 * acc + (c.toNat - 48)) 0

/-- Consume an optional leading sign, returning the sign and the rest. -/
def parseSignChars : List Char → ℤ × List Char
  | '-' :: t => (-1, t)
  | '+' :: t => (1, t)
  | l => (1, l)

/-- Parse the optional exponent part of a decimal float literal: on `e`/`E`
a sign and a nonempty digit run must follow (`none` = syntax error); with no
exponent marker the exponent is `0` and the input is left untouched. -/
def parseExpPart : List Char → Option (ℤ × List Char)
  | [] => some (0, [])
  | c :: t =>
    if c = 'e' ∨ c = 'E' then
      let p := parseSignChars t
      let ed := p.2.takeWhile Char.isDigit
      let t2 := p.2.dropWhile Char.isDigit
      if ed.isEmpty then none else some (p.1 * (digitsToNat ed : ℤ), t2)
    else some (0, c :: t)

/-- `strconv.ParseFloat(s, 64)`, modelled for plain decimal forms: optional
sign, digit run with optional fractional part, optional decimal exponent;
anything else (including the empty string) is an `invalid syntax` error, a
finite value past the binary64 range is a `value out of range` error. Go's
hexadecimal floats, `inf`/`nan` spellings, underscore digit separators and
the underflow-range error are outside the model's scope (no claim input uses
them). The returned fraction is the exact value of the correctly rounded
binary64 result, matching Go's correctly rounded conversion. -/
def goParseFloat (s : String) : Except String Q :=
  let synErr := "strconv.ParseFloat: parsing \"" ++ s ++ "\": invalid syntax"
  let rngErr := "strconv.ParseFloat: parsing \"" ++ s ++ "\": value out of range"
  let p := parseSignChars s.data
  let intD := p.2.takeWhile Char.isDigit
  let r1 := p.2.dropWhile Char.isDigit
  let fg : List Char × List Char :=
    match r1 with
    | '.' :: t => (t.takeWhile Char.isDigit, t.dropWhile Char.isDigit)
    | _ => ([], r1)
  if intD.isEmpty && fg.1.isEmpty then Except.error synErr
  else
    match parseExpPart fg.2 with
    | none => Except.error synErr
    | some (ex, r3) =>
      if !r3.isEmpty then Except.error synErr
      else
        let mag := Q.mul ⟨(digitsToNat (intD ++ fg.1) : ℤ), 1⟩ (pow10Q (ex - fg.1.length))
        let v := roundB64 (if p.1 < 0 then Q.neg mag else mag)
        if Q.ble (pow2Q 1024) (Q.abs v) then Except.error rngErr
        else Except.ok v

/-- The Go constant `1e18` as a binary64 value; `10 ^ 18` is exactly
representable, so the rounding is the identity here. -/
def goLit1e18 : Q := roundB64 ⟨((10 ^ 18 : ℕ) : ℤ), 1⟩

/-- `getCoinBalance` (claim.go lines 192-249), with the HTTP round trip
supplied as the `t` argument (the request construction only shapes the
outbound request and is absorbed into `t`). The success value divides the
parsed `dailyPowerToken` double by the double constant `1e18` (an IEEE
division, i.e. the exact quotient rounded) and renders it with
`fmt.Sprintf("%f", _)`. -/
def getCoinBalance (c : Config) (t : TransportResult) : Except String String :=
  match t with
  | .netErr e => Except.error ("failed to send wallet request: " ++ e)
  | .ok resp =>
    if resp.status ≠ 200 then
      match resp.body with
      | .bad derr => Except.error ("failed to decode wallet error response: " ++ derr)
      | .obj fields =>
          Except.error ("failed to get wallet data: " ++ goFmtValue (jlookup fields "message"))
    else
      match resp.body with
      | .bad derr => Except.error ("error decoding wallet response: " ++ derr)
      | .obj fields =>
        match jlookup fields "data" with
        | some (.arr (w :: _)) =>
          match w with
          | .obj wallet =>
            match jlookup wallet "dailyPowerToken" with
            | some (.str dailyPowerTokenStr) =>
              match goParseFloat dailyPowerTokenStr with
              | .error e => Except.error ("failed to parse dailyPowerToken: " ++ e)
              | .ok dailyPowerToken =>
                  Except.ok (goFormatF6 (roundB64 (Q.div dailyPowerToken goLit1e18)))
            | _ => Except.error "dailyPowerToken not found or invalid"
          | _ => Except.error "invalid wallet data format"
        | _ => Except.error "no wallet data found"

/-- `strconv.Atoi`: optional sign followed by a nonempty digit run; rejects
anything else as `invalid syntax` and 64-bit overflow as `value out of
range` (Go's `int` is 64-bit on the targeted platforms). -/
def goAtoi (s : String) : Except String ℤ :=
  let synErr := "strconv.Atoi: parsing \"" ++ s ++ "\": invalid syntax"
  let rngErr := "strconv.Atoi: parsing \"" ++ s ++ "\": value out of range"
  match s.data with
  | [] => Except.error synErr
  | c :: t =>
    let sgn : ℤ := if c = '-' then -1 else 1
    let digits := if c = '-' ∨ c = '+' then t else c :: t
    if digits.isEmpty then Except.error synErr
    else if !digits.all Char.isDigit then Except.error synErr
    else
      let v : ℤ := sgn * (digitsToNat digits : ℤ)
      if v < -((2 ^ 63 : ℕ) : ℤ) ∨ ((2 ^ 63 : ℕ) : ℤ) ≤ v then Except.error rngErr
      else Except.ok v

/-- `bytes.Split` with a single-byte separator: split a character list at
every occurrence of `c` (the result always has one more part than there are
separators; splitting the empty list gives one empty part). -/
def splitChar (c : Char) : List Char → List (List Char)
  | [] => [[]]
  | a :: t =>
    if a = c then [] :: splitChar c t
    else
      match splitChar c t with
      | [] => [[a]]
      | h :: r => (a :: h) :: r

/-- `parseScheduledTime` (claim.go lines 133-144): split on `":"`, demand
exactly two parts, convert both with `strconv.Atoi`. -/
def parseScheduledTime (s : String) : Except String (ℤ × ℤ) :=
  match splitChar ':' s.data with
  | [p0, p1] =>
    match goAtoi (String.mk p0) with
    | .error e => Except.error e
    | .ok hour =>
      match goAtoi (String.mk p1) with
      | .error e => Except.error e
      | .ok minute => Except.ok (hour, minute)
  | _ => Except.error "time must be in HH:MM format"

/-- The process environment as `os.Getenv` sees it: a total map from
variable names to values, where an unset variable reads as `""`. -/
def Env : Type := String → String

/-- Result of the startup phase of `main`: the built configuration, the
parsed trigger time, and the number of task executions performed before the
cron scheduler is started (`main` registers the task closure with
`c.AddFunc` and immediately calls `c.Start()` followed by a blocking
`select {}`; it never invokes the closure itself, so this count is `0`). -/
structure StartupState where
  config : Config
  hour : ℤ
  minute : ℤ
  startupRuns : ℕ

/-- Startup phase of `main` (claim.go lines 251-336) up to arming the cron
trigger. `Except.error msg` models `log.Fatal`/`log.Fatalf` with message
`msg`: the process terminates immediately with a non-zero exit status. In
source order: the `Config` literal is built first, and its `TimeZoneOffset`
field initializer always calls `strconv.Atoi` on the raw `TIMEZONE_OFFSET`
value — when the variable is unset it logs "TIMEZONE_OFFSET is not set,
defaulting to 8" but still feeds `""` to `Atoi`, whose error then reaches
`log.Fatalf` (the `return 8` after `log.Fatalf` is unreachable). Then the
`COOKIE` and `USER_ID` presence checks run, `SCHEDULED_TIME` defaults to
`"00:05"`, `parseScheduledTime` runs, and `cron.AddFunc` registers the spec
`"M H * * *"` — robfig/cron rejects out-of-range fields (minute outside
0..59, hour outside 0..23), which `main` turns into a fatal error. -/
def mainStartup (env : Env) : Except String StartupState :=
  match goAtoi (env "TIMEZONE_OFFSET") with
  | .error e => Except.error ("Invalid TIMEZONE_OFFSET: " ++ e)
  | .ok offset =>
    let config : Config :=
      { Cookie := env "COOKIE"
        UserID := env "USER_ID"
        BarkURL := env "BARK_URL"
        TelegramToken := env "TELEGRAM_TOKEN"
        TelegramChatID := env "TELEGRAM_CHAT_ID"
        ScheduledTime := env "SCHEDULED_TIME"
        TimeZoneOffset := offset }
    if config.Cookie = "" then Except.error "COOKIE must be set in environment variables"
    else if config.UserID = "" then Except.error "USER_ID must be set in environment variables"
    else
      let config :=
        if config.ScheduledTime = "" then { config with ScheduledTime := "00:05" } else config
      match parseScheduledTime config.ScheduledTime with
      | .error e => Except.error ("Invalid SCHEDULED_TIME format: " ++ e)
      | .ok (hour, minute) =>
        if 0 ≤ minute ∧ minute ≤ 59 ∧ 0 ≤ hour ∧ hour ≤ 23 then
          Except.ok { config := config, hour := hour, minute := minute, startupRuns := 0 }
        else Except.error "Error scheduling task: invalid cron spec"

/-- Everything one firing of the scheduled task produces. -/
structure TaskRun where
  report : String
  barkMessages : List String
  telegramMessages : List String

/-- The cron task closure (claim.go lines 301-327), one firing. The two HTTP
round trips are supplied as `tClaim` and `tWallet`; `nowStr` stands for
`time.Now().In(zone).Format("2006-01-02 15:04:05")`, the wall-clock reading
rendered in the configured offset zone (real time is an input of the model).
A failed call degrades its report field to the `err.Error()` text; the
balance call runs whatever the claim call produced. The Telegram message,
sent only when both `TelegramToken` and `TelegramChatID` are configured,
prepends the `*Follow Claim*` title line; its delivery outcome is only
logged. -/
def runTask (c : Config) (tClaim tWallet : TransportResult) (nowStr : String) : TaskRun :=
  let claimPair := signFollow c tClaim
  let claimResult :=
    match claimPair.1 with
    | .ok m => m
    | .error e => e
  let balance :=
    match getCoinBalance c tWallet with
    | .ok b => b
    | .error e => e
  let currentDate := nowStr ++ " UTC" ++ goFmtPlusInt c.TimeZoneOffset
  let logMessage :=
    "\n" ++ claimResult ++ "\nCoin Balance: " ++ balance ++ "\n\nDate: " ++ currentDate
  let tgs :=
    if c.TelegramToken ≠ "" ∧ c.TelegramChatID ≠ "" then ["*Follow Claim*\n" ++ logMessage]
    else []
  { report := logMessage, barkMessages := claimPair.2, telegramMessages := tgs }

/-- Modelled from the spec: the provider's CSRF/anti-forgery field name that
the credential extractor looks up inside the session-credential string. The
literal is not under src/ (only the call site, claim.go line 149, is); the
claims quantify over credential strings containing or missing the field, so
only its fixedness matters, and the name of the claim payload key is used. -/
def csrfFieldName : String := "csrfToken"

/-- Drop the leading spaces of a cookie entry (entries after the first are
separated by `"; "`, so they carry one leading space). -/
def dropSpaces (l : List Char) : List Char := l.dropWhile (· = ' ')

/-- Split a cookie entry at its first `'='`: key before, value after (the
value may itself contain `'='`). An entry with no `'='` is malformed and
yields no pair. -/
def entryPair (e : List Char) : Option (String × String) :=
  if e.contains '=' then
    some (String.mk (e.takeWhile (· ≠ '=')), String.mk ((e.dropWhile (· ≠ '=')).drop 1))
  else none

/-- Parse an HTTP-cookie-style `key=value; key=value` character list into
its key/value pairs. -/
def cookiePairsL (l : List Char) : List (String × String) :=
  ((splitChar ';' l).map dropSpaces).filterMap entryPair

/-- Parse an HTTP-cookie-style `key=value; key=value` string into its
key/value pairs. -/
def cookiePairs (s : String) : List (String × String) := cookiePairsL s.data

/-- Modelled from the spec: `extractCSRFToken`. src/claim.go line 149 calls
`extractCSRFToken(c.Config.Cookie)`, but the repository code defining it is
not under src/. Per the spec (§4.1 CredentialExtractor): the input is an
HTTP-cookie-style `key=value; key=value` string; the extractor locates the
token associated with the provider's CSRF field name and returns its exact
value, and fails with an ExtractionError when the field is absent or the
string is malformed. -/
def extractCSRFToken (cookie : String) : Except String String :=
  match (cookiePairs cookie).lookup csrfFieldName with
  | some v => Except.ok v
  | none => Except.error ("ExtractionError: " ++ csrfFieldName ++ " not found in cookie")

/-- Modelled from the spec: caller handling of an ExtractionError. The spec
(§4.1) requires callers to report an extraction failure like any other
ClaimResult.Failure without crashing the process; under src/ the call site
(claim.go line 149) cannot observe a failure, since the returned string
feeds the request body directly, so this wrapper models the spec's
contract: on extraction failure the claim attempt degrades to that Failure
(posting nothing to the push sink), otherwise `signFollow` proceeds. -/
def signFollowChecked (c : Config) (t : TransportResult) : Except String String × List String :=
  match extractCSRFToken c.Cookie with
  | .error e => (Except.error e, [])
  | .ok _ => signFollow c t

/-- Render key/value pairs as an HTTP-cookie-style character list with
`"; "` separators. -/
def renderKvs : List (String × String) → List Char
  | [] => []
  | [(k, v)] => k.data ++ '=' :: v.data
  | (k, v) :: rest => k.data ++ '=' :: v.data ++ ';' :: ' ' :: renderKvs rest

/-- Render key/value pairs as an HTTP-cookie-style string. -/
def renderCookie (kvs : List (String × String)) : String := String.mk (renderKvs kvs)

/-- A well-formed cookie key: nonempty, and free of the separator, pad and
assignment characters. -/
def GoodKey (k : String) : Prop := k ≠ "" ∧ ';' ∉ k.data ∧ '=' ∉ k.data ∧ ' ' ∉ k.data

/-- A well-formed cookie value: free of the separator character (it may
contain `'='`, as provider tokens do). -/
def GoodVal (v : String) : Prop := ';' ∉ v.data

/-- A well-formed cookie pair list. -/
def GoodKvs (kvs : List (String × String)) : Prop := ∀ p ∈ kvs, GoodKey p.1 ∧ GoodVal p.2

/-- Decidable equality for `Except`, used only to evaluate embedded
functions at concrete inputs. -/
instance {ε α : Type} [DecidableEq ε] [DecidableEq α] : DecidableEq (Except ε α) := fun a b =>
  match a, b with
  | .ok x, .ok y =>
      if h : x = y then .isTrue (by rw [h]) else .isFalse (fun hc => h (Except.ok.inj hc))
  | .ok _, .error _ => .isFalse Except.noConfusion
  | .error _, .ok _ => .isFalse Except.noConfusion
  | .error x, .error y =>
      if h : x = y then .isTrue (by rw [h]) else .isFalse (fun hc => h (Except.error.inj hc))

/-- The `Success`/`Failure` text a result contributes to the report
(`main` replaces a failed call's value by `err.Error()`). -/
def resultText (r : Except String String) : String :=
  match r with
  | .ok m => m
  | .error e => e

/-- A configuration with the push sink configured. -/
def cfgBark : Config :=
  { Cookie := "session=abc; csrfToken=tok", UserID := "u123",
    BarkURL := "https://bark.example/push", TelegramToken := "", TelegramChatID := "",
    ScheduledTime := "00:05", TimeZoneOffset := 8 }

/-- A configuration with no push sink configured. -/
def cfgPlain : Config :=
  { Cookie := "session=abc; csrfToken=tok", UserID := "u123",
    BarkURL := "", TelegramToken := "", TelegramChatID := "",
    ScheduledTime := "00:05", TimeZoneOffset := 8 }

/-- The claim endpoint's HTTP 400 response with body
`{"message":"already claimed"}`. -/
def respAlreadyClaimed : TransportResult :=
  .ok ⟨400, .obj [("message", .str "already claimed")]⟩

/-- C1 counterexample: with the push sink configured and the claim endpoint
answering HTTP 400 with the decodable body `{"message":"already claimed"}`,
`signFollow` does return `Failure("Claim Points Failed: already claimed")`,
but — contrary to the claim — the push sink IS invoked: the failure message
is posted to the Bark webhook (claim.go line 182 calls `sendToBark` on the
decodable-error-body path). -/
theorem c1_counterexample :
    signFollow cfgBark respAlreadyClaimed =
      (Except.error "Claim Points Failed: already claimed",
       ["Claim Points Failed: already claimed"]) ∧
    ¬ (signFollow cfgBark respAlreadyClaimed).2 = [] := by
  constructor
  · rfl
  · intro h
    rw [show (signFollow cfgBark respAlreadyClaimed).2 =
          ["Claim Points Failed: already claimed"] from rfl] at h
    exact List.noConfusion h

/-- C1 amended: if the claim endpoint responds HTTP 400 with a decodable
JSON body `{"message": m}`, `signFollow` returns
`Failure("Claim Points Failed: " ++ m)` and, when the push URL is
configured, the push sink IS invoked with that same failure message —
remote API errors carried in a decodable error body trigger the
out-of-band push alert just like transport-level errors do. -/
theorem c1_amended (c : Config) (m : String) (hbark : c.BarkURL ≠ "") :
    signFollow c (.ok ⟨400, .obj [("message", .str m)]⟩) =
      (Except.error ("Claim Points Failed: " ++ m), ["Claim Points Failed: " ++ m]) := by
  simp [signFollow, sendToBark, hbark, jlookup, goFmtValue, goFmtJson]

/-- C1 amended, witnessed at the claim's concrete input. -/
theorem c1_amended_witness :
    signFollow cfgBark respAlreadyClaimed =
      (Except.error "Claim Points Failed: already claimed",
       ["Claim Points Failed: already claimed"]) :=
  c1_amended cfgBark "already claimed" (by decide)

/-- C4 counterexample: HTTP 201 is a 2xx status, yet `signFollow` does not
return `Success("Claim Points Success")` there — the code compares the
status against exactly 200 (`resp.StatusCode != http.StatusOK`) and treats
201 as an error response, decoding the body's `message` field. -/
theorem c4_counterexample :
    (signFollow cfgPlain (.ok ⟨201, .obj [("message", .str "created")]⟩)).1 =
      Except.error "Claim Points Failed: created" ∧
    (signFollow cfgPlain (.ok ⟨201, .obj [("message", .str "created")]⟩)).1 ≠
      Except.ok "Claim Points Success" := by
  constructor
  · rfl
  · intro h
    exact Except.noConfusion h

/-- C4 amended: for every response to the claim POST, if the HTTP status is
exactly 200 `signFollow` returns `Success("Claim Points Success")`; if the
status is any other value (including other 2xx codes) and the JSON error
body decodes with a `message` field, it returns `Failure` carrying that
field; on a network/transport error it returns `Failure` wrapping the
transport error text. -/
theorem c4_amended :
    (∀ (c : Config) (body : Body),
        (signFollow c (.ok ⟨200, body⟩)).1 = Except.ok "Claim Points Success") ∧
    (∀ (c : Config) (st : ℕ) (fields : List (String × Json)) (m : String),
        st ≠ 200 → jlookup fields "message" = some (.str m) →
        (signFollow c (.ok ⟨st, .obj fields⟩)).1 =
          Except.error ("Claim Points Failed: " ++ m)) ∧
    (∀ (c : Config) (e : String),
        (signFollow c (.netErr e)).1 =
          Except.error ("failed to send claim request: " ++ e)) := by
  refine ⟨fun c body => by simp [signFollow], fun c st fields m hst hm => ?_, fun c e => rfl⟩
  simp [signFollow, hst, hm, goFmtValue, goFmtJson]

/-- C4 amended, witnessed at concrete inputs discharging each hypothesis. -/
theorem c4_amended_witness :
    (signFollow cfgPlain (.ok ⟨200, .obj []⟩)).1 = Except.ok "Claim Points Success" ∧
    (signFollow cfgPlain (.ok ⟨500, .obj [("message", .str "oops")]⟩)).1 =
      Except.error "Claim Points Failed: oops" ∧
    (signFollow cfgPlain (.netErr "dial tcp: i/o timeout")).1 =
      Except.error "failed to send claim request: dial tcp: i/o timeout" :=
  ⟨c4_amended.1 cfgPlain _,
   c4_amended.2.1 cfgPlain 500 _ "oops" (by decide) rfl,
   c4_amended.2.2 cfgPlain _⟩

/-- C10: on every claim response with status 200, `signFollow` posts the
message "Claim Points Success" to the push sink (when the push URL is
configured) and returns success — a push notification accompanies every
successful claim, not only daily reports or transport alerts. -/
theorem c10_success_push (c : Config) (body : Body) (hbark : c.BarkURL ≠ "") :
    signFollow c (.ok ⟨200, body⟩) =
      (Except.ok "Claim Points Success", ["Claim Points Success"]) := by
  simp [signFollow, sendToBark, hbark]

/-- C10, witnessed with a configured push URL. -/
theorem c10_success_push_witness :
    signFollow cfgBark (.ok ⟨200, .obj []⟩) =
      (Except.ok "Claim Points Success", ["Claim Points Success"]) :=
  c10_success_push cfgBark _ (by decide)

/-- A wallet response whose `data[0].dailyPowerToken` is the numeric string
`"1230000000000000000"`. -/
def walletBody : Body :=
  .obj [("code", .num ⟨0, 1⟩),
        ("data", .arr [.obj [("createdAt", .str "2024-09-30T00:00:00.000Z"),
                             ("dailyPowerToken", .str "1230000000000000000")]])]

/-- C6: on a wallet response whose `data[0].dailyPowerToken` is
`"1230000000000000000"`, `getCoinBalance` parses it as a `float64`, divides
by `1e18` and formats with `%f`, returning exactly `"1.230000"`. -/
theorem c6_balance_format :
    getCoinBalance cfgPlain (.ok ⟨200, walletBody⟩) = Except.ok "1.230000" := by
  decide

/-- C5: every firing of the scheduled task produces exactly one report
string, and that string is built from the claim outcome text, the balance
outcome text and the timestamp — a failed call contributes its error text
instead of aborting the run, and the balance field depends only on the
wallet round trip (so a claim failure cannot prevent the balance call, and
vice versa). -/
theorem c5_report_invariant (c : Config) (tClaim tWallet : TransportResult) (nowStr : String) :
    (runTask c tClaim tWallet nowStr).report =
      "\n" ++ resultText (signFollow c tClaim).1 ++ "\nCoin Balance: " ++
        resultText (getCoinBalance c tWallet) ++ "\n\nDate: " ++ nowStr ++ " UTC" ++
        goFmtPlusInt c.TimeZoneOffset := by
  cases hc : (signFollow c tClaim).1 <;> cases hw : getCoinBalance c tWallet <;>
    simp [runTask, resultText, hc, hw, String.append_assoc]

/-- Environment with the required credential and identifier present but the
UTC display offset key unset. -/
def envC2 : Env := fun k =>
  if k = "COOKIE" then "session=abc; csrfToken=tok"
  else if k = "USER_ID" then "u123"
  else ""

/-- C2, evaluated at the failing input: with `TIMEZONE_OFFSET` unset (and
both required variables present), startup does NOT proceed with the default
offset +8 — the `TimeZoneOffset` initializer logs "defaulting to 8" but
still feeds `""` to `strconv.Atoi` and hits `log.Fatalf`, terminating the
process with a non-zero status (the `return 8` after `log.Fatalf` is
unreachable). This contradicts the claim (and the code's own comment and
log line), so the claim is right and the code has a slip. -/
theorem c2_unset_offset_fatal :
    mainStartup envC2 =
      Except.error "Invalid TIMEZONE_OFFSET: strconv.Atoi: parsing \"\": invalid syntax" := by
  rfl

/-- Environment for C3: required variables present, offset set, plus a
run-immediately flag set — which the program never reads. -/
def envC3 : Env := fun k =>
  if k = "COOKIE" then "session=abc; csrfToken=tok"
  else if k = "USER_ID" then "u123"
  else if k = "TIMEZONE_OFFSET" then "8"
  else if k = "RUN_IMMEDIATELY" then "true"
  else ""

/-- The startup state `main` reaches under `envC3`. -/
def stC3 : StartupState :=
  { config := { Cookie := "session=abc; csrfToken=tok", UserID := "u123", BarkURL := "",
                TelegramToken := "", TelegramChatID := "", ScheduledTime := "00:05",
                TimeZoneOffset := 8 },
    hour := 0, minute := 5, startupRuns := 0 }

/-- C3 counterexample: with a run-immediately flag set in the environment,
startup succeeds but performs zero task executions before the trigger is
armed — not the "exactly once" the claim requires. The configuration has no
run-immediately key at all: `main` reads only COOKIE, USER_ID, BARK_URL,
TELEGRAM_TOKEN, TELEGRAM_CHAT_ID, SCHEDULED_TIME and TIMEZONE_OFFSET, and
never invokes the task closure before `c.Start()`. -/
theorem c3_counterexample :
    mainStartup envC3 = Except.ok stC3 ∧
    (mainStartup envC3).toOption.map StartupState.startupRuns ≠ some 1 := by
  constructor
  · rfl
  · intro h
    rw [show (mainStartup envC3).toOption.map StartupState.startupRuns = some 0 from rfl] at h
    simp at h

/-- C3 amended: the configuration has no run-immediately flag; whatever the
environment contains, whenever startup succeeds the task has executed zero
times before the recurring daily trigger is armed (the task runs only on
cron firings). -/
theorem c3_no_startup_run (env : Env) (st : StartupState)
    (h : mainStartup env = Except.ok st) : st.startupRuns = 0 := by
  unfold mainStartup at h
  dsimp only at h
  repeat' split at h
  any_goals exact Except.noConfusion h
  all_goals (cases Except.ok.inj h; rfl)

/-- C3 amended, witnessed at `envC3`. -/
theorem c3_no_startup_run_witness : stC3.startupRuns = 0 :=
  c3_no_startup_run envC3 stC3 (by rfl)

/-- C7: on a 200 wallet response, each malformed shape is rejected with its
own diagnostic, and the three diagnostics are pairwise distinct: a missing,
non-array or empty `data` yields "no wallet data found"; a non-object first
element yields "invalid wallet data format"; a missing or non-string
`dailyPowerToken` yields "dailyPowerToken not found or invalid"; a
non-numeric `dailyPowerToken` string yields the wrapped parse error. The
embedded function is total, so no input can make it panic. -/
theorem c7_diagnostics :
    (∀ (c : Config) (fields : List (String × Json)), jlookup fields "data" = none →
        getCoinBalance c (.ok ⟨200, .obj fields⟩) = Except.error "no wallet data found") ∧
    (∀ (c : Config) (fields : List (String × Json)) (j : Json),
        jlookup fields "data" = some j → (∀ l, j ≠ .arr l) →
        getCoinBalance c (.ok ⟨200, .obj fields⟩) = Except.error "no wallet data found") ∧
    (∀ (c : Config) (fields : List (String × Json)),
        jlookup fields "data" = some (.arr []) →
        getCoinBalance c (.ok ⟨200, .obj fields⟩) = Except.error "no wallet data found") ∧
    (∀ (c : Config) (fields : List (String × Json)) (j : Json) (rest : List Json),
        jlookup fields "data" = some (.arr (j :: rest)) → (∀ w, j ≠ .obj w) →
        getCoinBalance c (.ok ⟨200, .obj fields⟩) = Except.error "invalid wallet data format") ∧
    (∀ (c : Config) (fields : List (String × Json)) (w : List (String × Json))
        (rest : List Json),
        jlookup fields "data" = some (.arr (.obj w :: rest)) →
        jlookup w "dailyPowerToken" = none →
        getCoinBalance c (.ok ⟨200, .obj fields⟩) =
          Except.error "dailyPowerToken not found or invalid") ∧
    (∀ (c : Config) (fields : List (String × Json)) (w : List (String × Json))
        (rest : List Json) (j : Json),
        jlookup fields "data" = some (.arr (.obj w :: rest)) →
        jlookup w "dailyPowerToken" = some j → (∀ s, j ≠ .str s) →
        getCoinBalance c (.ok ⟨200, .obj fields⟩) =
          Except.error "dailyPowerToken not found or invalid") ∧
    (∀ (c : Config) (fields : List (String × Json)) (w : List (String × Json))
        (rest : List Json) (s e : String),
        jlookup fields "data" = some (.arr (.obj w :: rest)) →
        jlookup w "dailyPowerToken" = some (.str s) → goParseFloat s = Except.error e →
        getCoinBalance c (.ok ⟨200, .obj fields⟩) =
          Except.error ("failed to parse dailyPowerToken: " ++ e)) ∧
    ("no wallet data found" ≠ "invalid wallet data format" ∧
     "no wallet data found" ≠ "dailyPowerToken not found or invalid" ∧
     "invalid wallet data format" ≠ "dailyPowerToken not found or invalid") := by
  refine ⟨fun c fields h => by simp [getCoinBalance, h],
          fun c fields j h hne => ?_,
          fun c fields h => by simp [getCoinBalance, h],
          fun c fields j rest h hne => ?_,
          fun c fields w rest h hw => by simp [getCoinBalance, h, hw],
          fun c fields w rest j h hw hne => ?_,
          fun c fields w rest s e h hw he => by simp [getCoinBalance, h, hw, he],
          by decide, by decide, by decide⟩
  · cases j <;> first | exact absurd rfl (hne _) | simp [getCoinBalance, h]
  · cases j <;> first | exact absurd rfl (hne _) | simp [getCoinBalance, h]
  · cases j <;> first | exact absurd rfl (hne _) | simp [getCoinBalance, h, hw]

/-- C7, witnessed: one concrete body per diagnosable failure stage. -/
theorem c7_diagnostics_witness :
    getCoinBalance cfgPlain (.ok ⟨200, .obj [("code", .num ⟨0, 1⟩)]⟩) =
      Except.error "no wallet data found" ∧
    getCoinBalance cfgPlain (.ok ⟨200, .obj [("data", .str "x")]⟩) =
      Except.error "no wallet data found" ∧
    getCoinBalance cfgPlain (.ok ⟨200, .obj [("data", .arr [])]⟩) =
      Except.error "no wallet data found" ∧
    getCoinBalance cfgPlain (.ok ⟨200, .obj [("data", .arr [.str "x"])]⟩) =
      Except.error "invalid wallet data format" ∧
    getCoinBalance cfgPlain (.ok ⟨200, .obj [("data", .arr [.obj []])]⟩) =
      Except.error "dailyPowerToken not found or invalid" ∧
    getCoinBalance cfgPlain
        (.ok ⟨200, .obj [("data", .arr [.obj [("dailyPowerToken", .num ⟨1, 1⟩)]])]⟩) =
      Except.error "dailyPowerToken not found or invalid" ∧
    getCoinBalance cfgPlain
        (.ok ⟨200, .obj [("data", .arr [.obj [("dailyPowerToken", .str "abc")]])]⟩) =
      Except.error
        "failed to parse dailyPowerToken: strconv.ParseFloat: parsing \"abc\": invalid syntax" :=
  ⟨c7_diagnostics.1 cfgPlain _ rfl,
   c7_diagnostics.2.1 cfgPlain _ (.str "x") rfl (fun _ h => Json.noConfusion h),
   c7_diagnostics.2.2.1 cfgPlain _ rfl,
   c7_diagnostics.2.2.2.1 cfgPlain _ (.str "x") [] rfl (fun _ h => Json.noConfusion h),
   c7_diagnostics.2.2.2.2.1 cfgPlain _ [] [] rfl rfl,
   c7_diagnostics.2.2.2.2.2.1 cfgPlain _ _ [] (.num ⟨1, 1⟩) rfl rfl
     (fun _ h => Json.noConfusion h),
   c7_diagnostics.2.2.2.2.2.2.1 cfgPlain _ _ [] "abc" _ rfl rfl rfl⟩

/-- Render an hour/minute pair as a canonical `HH:MM` string. -/
def hhmm (h m : ℕ) : String :=
  String.mk [Nat.digitChar (h / 10), Nat.digitChar (h % 10), ':',
             Nat.digitChar (m / 10), Nat.digitChar (m % 10)]

/-- Environment whose `SCHEDULED_TIME` is malformed (three parts). -/
def envC8 : Env := fun k =>
  if k = "COOKIE" then "session=abc; csrfToken=tok"
  else if k = "USER_ID" then "u123"
  else if k = "TIMEZONE_OFFSET" then "8"
  else if k = "SCHEDULED_TIME" then "9:9:9"
  else ""

/-- C8: every valid `HH:MM` string parses to its (hour, minute) pair; a
string whose colon-separated part count is not 2, or whose first or second
part `strconv.Atoi` rejects, yields an error — and at startup such an error
is fatal: `main` turns it into the `Invalid SCHEDULED_TIME format`
`log.Fatalf`, terminating the process with a non-zero status. -/
theorem c8_scheduledTime :
    (∀ h : ℕ, h < 24 → ∀ m : ℕ, m < 60 →
        parseScheduledTime (hhmm h m) = Except.ok ((h : ℤ), (m : ℤ))) ∧
    (∀ s : String, (splitChar ':' s.data).length ≠ 2 →
        parseScheduledTime s = Except.error "time must be in HH:MM format") ∧
    (∀ (s : String) (p0 p1 : List Char) (e : String),
        splitChar ':' s.data = [p0, p1] → goAtoi (String.mk p0) = Except.error e →
        parseScheduledTime s = Except.error e) ∧
    (∀ (s : String) (p0 p1 : List Char) (hr : ℤ) (e : String),
        splitChar ':' s.data = [p0, p1] → goAtoi (String.mk p0) = Except.ok hr →
        goAtoi (String.mk p1) = Except.error e →
        parseScheduledTime s = Except.error e) ∧
    (∀ (env : Env) (e : String), env "COOKIE" ≠ "" → env "USER_ID" ≠ "" →
        env "SCHEDULED_TIME" ≠ "" →
        (∃ off, goAtoi (env "TIMEZONE_OFFSET") = Except.ok off) →
        parseScheduledTime (env "SCHEDULED_TIME") = Except.error e →
        mainStartup env = Except.error ("Invalid SCHEDULED_TIME format: " ++ e)) := by
  refine ⟨by decide, fun s hlen => ?_, fun s p0 p1 e hsp h0 => ?_,
          fun s p0 p1 hr e hsp h0 h1 => ?_, fun env e hc hu hs hoff hp => ?_⟩
  · unfold parseScheduledTime
    cases hsp : splitChar ':' s.data with
    | nil => rfl
    | cons p0 rest =>
      cases rest with
      | nil => rfl
      | cons p1 rest2 =>
        cases rest2 with
        | nil => rw [hsp] at hlen; simp at hlen
        | cons p2 rest3 => rfl
  · simp [parseScheduledTime, hsp, h0]
  · simp [parseScheduledTime, hsp, h0, h1]
  · obtain ⟨off, hoff⟩ := hoff
    unfold mainStartup
    rw [hoff]
    dsimp only
    simp [hc, hu, hs, hp]

/-- C8, witnessed: a valid time, a part-count failure, two non-numeric
failures, and the fatal startup path. -/
theorem c8_scheduledTime_witness :
    parseScheduledTime (hhmm 7 30) = Except.ok (7, 30) ∧
    parseScheduledTime "0005" = Except.error "time must be in HH:MM format" ∧
    parseScheduledTime "aa:05" =
      Except.error "strconv.Atoi: parsing \"aa\": invalid syntax" ∧
    parseScheduledTime "00:bb" =
      Except.error "strconv.Atoi: parsing \"bb\": invalid syntax" ∧
    mainStartup envC8 =
      Except.error "Invalid SCHEDULED_TIME format: time must be in HH:MM format" :=
  ⟨c8_scheduledTime.1 7 (by decide) 30 (by decide),
   c8_scheduledTime.2.1 "0005" (by decide),
   c8_scheduledTime.2.2.1 "aa:05" ['a', 'a'] ['0', '5']
     "strconv.Atoi: parsing \"aa\": invalid syntax" rfl rfl,
   c8_scheduledTime.2.2.2.1 "00:bb" ['0', '0'] ['b', 'b'] 0
     "strconv.Atoi: parsing \"bb\": invalid syntax" rfl rfl rfl,
   c8_scheduledTime.2.2.2.2 envC8 "time must be in HH:MM format" (by decide) (by decide)
     (by decide) ⟨8, rfl⟩ rfl⟩

lemma splitChar_ne_nil (c : Char) (l : List Char) : splitChar c l ≠ [] := by
  induction l with
  | nil => simp [splitChar]
  | cons a t ih =>
    simp only [splitChar]
    split
    · simp
    · cases h : splitChar c t with
      | nil => simp
      | cons h' r => simp

lemma splitChar_not_mem {c : Char} {l : List Char} (h : c ∉ l) : splitChar c l = [l] := by
  induction l with
  | nil => rfl
  | cons a t ih =>
    have ha : ¬ a = c := fun he => h (he ▸ List.mem_cons_self a t)
    have ht : c ∉ t := fun hm => h (List.mem_cons_of_mem _ hm)
    simp [splitChar, if_neg ha, ih ht]

lemma splitChar_append {c : Char} {a : List Char} (b : List Char) (h : c ∉ a) :
    splitChar c (a ++ c :: b) = a :: splitChar c b := by
  induction a with
  | nil => simp [splitChar]
  | cons x t ih =>
    have hx : ¬ x = c := fun he => h (he ▸ List.mem_cons_self x t)
    have ht : c ∉ t := fun hm => h (List.mem_cons_of_mem _ hm)
    simp [splitChar, if_neg hx, ih ht]

lemma dropSpaces_space (l : List Char) : dropSpaces (' ' :: l) = dropSpaces l := by
  simp [dropSpaces, List.dropWhile_cons]

lemma dropSpaces_of_head_ne (x : Char) (t : List Char) (hx : x ≠ ' ') :
    dropSpaces (x :: t) = x :: t := by
  simp [dropSpaces, List.dropWhile_cons, hx]

lemma takeWhile_to_eq {k : List Char} (v : List Char) (h : '=' ∉ k) :
    (k ++ '=' :: v).takeWhile (· ≠ '=') = k := by
  induction k with
  | nil => simp [List.takeWhile_cons]
  | cons x t ih =>
    have hx : x ≠ '=' := fun he => h (he ▸ List.mem_cons_self x t)
    have ht : '=' ∉ t := fun hm => h (List.mem_cons_of_mem _ hm)
    have ih' := ih ht
    simp [List.takeWhile_cons, hx] at ih' ⊢
    exact ih' 

lemma dropWhile_to_eq {k : List Char} (v : List Char) (h : '=' ∉ k) :
    (k ++ '=' :: v).dropWhile (· ≠ '=') = '=' :: v := by
  induction k with
  | nil => simp [List.dropWhile_cons]
  | cons x t ih =>
    have hx : x ≠ '=' := fun he => h (he ▸ List.mem_cons_self x t)
    have ht : '=' ∉ t := fun hm => h (List.mem_cons_of_mem _ hm)
    have ih' := ih ht
    simp [List.dropWhile_cons, hx] at ih' ⊢
    exact ih' 

lemma entryPair_render {k v : String} (hk : '=' ∉ k.data) :
    entryPair (k.data ++ '=' :: v.data) = some (k, v) := by
  have hc : (k.data ++ '=' :: v.data).contains '=' = true := by
    simp [List.contains, List.elem_eq_mem, List.mem_append]
  unfold entryPair
  rw [if_pos hc, takeWhile_to_eq _ hk, dropWhile_to_eq _ hk]
  rfl

lemma eq_empty_of_data_eq_nil {k : String} (h : k.data = []) : k = "" := by
  cases k
  simp only at h
  subst h
  rfl

lemma cookiePairsL_render (kvs : List (String × String)) (h : GoodKvs kvs) :
    cookiePairsL (renderKvs kvs) = kvs := by
  induction kvs with
  | nil => rfl
  | cons p rest ih =>
    obtain ⟨k, v⟩ := p
    have hk := (h _ (List.mem_cons_self _ _)).1
    have hv := (h _ (List.mem_cons_self _ _)).2
    obtain ⟨hk0, hkSemi, hkEq, hkSp⟩ := hk
    have hrest : GoodKvs rest := fun q hq => h q (List.mem_cons_of_mem _ hq)
    have hvSemi : ';' ∉ v.data := hv
    have hA : ';' ∉ k.data ++ '=' :: v.data := by
      intro hm
      rcases List.mem_append.1 hm with hm | hm
      · exact hkSemi hm
      · rcases List.mem_cons.1 hm with hm | hm
        · exact absurd hm (by decide)
        · exact hvSemi hm
    obtain ⟨x, t, hkd⟩ : ∃ x t, k.data = x :: t := by
      cases hkd : k.data with
      | nil => exact absurd (eq_empty_of_data_eq_nil hkd) hk0
      | cons x t => exact ⟨x, t, rfl⟩
    have hx : x ≠ ' ' := fun he => hkSp (hkd ▸ (he ▸ List.mem_cons_self x t))
    have hdropA : dropSpaces (k.data ++ '=' :: v.data) = k.data ++ '=' :: v.data := by
      rw [hkd, List.cons_append, dropSpaces_of_head_ne x _ hx, ← List.cons_append, ← hkd]
    cases rest with
    | nil =>
      show cookiePairsL (renderKvs [(k, v)]) = [(k, v)]
      rw [show renderKvs [(k, v)] = k.data ++ '=' :: v.data from rfl]
      unfold cookiePairsL
      rw [splitChar_not_mem hA]
      simp only [List.map_cons, List.map_nil, hdropA]
      simp [List.filterMap_cons, entryPair_render hkEq]
    | cons p2 rest2 =>
      show cookiePairsL (renderKvs ((k, v) :: p2 :: rest2)) = (k, v) :: p2 :: rest2
      have hre : renderKvs ((k, v) :: p2 :: rest2) =
          (k.data ++ '=' :: v.data) ++ ';' :: (' ' :: renderKvs (p2 :: rest2)) := by
        simp [renderKvs, List.append_assoc]
      rw [hre]
      unfold cookiePairsL
      rw [splitChar_append _ hA]
      obtain ⟨hh, hr, hsp⟩ : ∃ hh hr, splitChar ';' (renderKvs (p2 :: rest2)) = hh :: hr := by
        cases hs : splitChar ';' (renderKvs (p2 :: rest2)) with
        | nil => exact absurd hs (splitChar_ne_nil _ _)
        | cons a b => exact ⟨a, b, rfl⟩
      have hsp2 : splitChar ';' (' ' :: renderKvs (p2 :: rest2)) = (' ' :: hh) :: hr := by
        simp [splitChar, hsp]
      rw [hsp2]
      have ih' := ih hrest
      unfold cookiePairsL at ih'
      rw [hsp] at ih'
      simp only [List.map_cons] at ih' ⊢
      rw [dropSpaces_space, hdropA]
      simp [List.filterMap_cons, entryPair_render hkEq, ih']

/-- Concrete well-formed credential pairs containing the CSRF field. -/
def kvsC9 : List (String × String) := [("session", "abc"), ("csrfToken", "tok%7C123")]

/-- Concrete well-formed credential pairs missing the CSRF field. -/
def kvsC9none : List (String × String) := [("session", "abc")]

/-- C9 (spec-modelled: `extractCSRFToken` is not under src/): for every
well-formed session-credential string containing the provider's CSRF field,
the extractor returns that field's exact value; for every such string where
the field is absent, extraction fails with an ExtractionError value — a
returned Failure from a total function, not a crash — and the modelled
claim path reports it as the run's ClaimResult.Failure, posting nothing to
the push sink. -/
theorem c9_extract :
    (∀ (kvs : List (String × String)) (v : String), GoodKvs kvs →
        kvs.lookup csrfFieldName = some v →
        extractCSRFToken (renderCookie kvs) = Except.ok v) ∧
    (∀ (kvs : List (String × String)) (c : Config) (t : TransportResult), GoodKvs kvs →
        kvs.lookup csrfFieldName = none →
        extractCSRFToken (renderCookie kvs) =
          Except.error ("ExtractionError: " ++ csrfFieldName ++ " not found in cookie") ∧
        signFollowChecked { c with Cookie := renderCookie kvs } t =
          (Except.error ("ExtractionError: " ++ csrfFieldName ++ " not found in cookie"),
           [])) := by
  constructor
  · intro kvs v hg hl
    unfold extractCSRFToken
    rw [show cookiePairs (renderCookie kvs) = cookiePairsL (renderKvs kvs) from rfl,
        cookiePairsL_render kvs hg, hl]
  · intro kvs c t hg hl
    have he : extractCSRFToken (renderCookie kvs) =
        Except.error ("ExtractionError: " ++ csrfFieldName ++ " not found in cookie") := by
      unfold extractCSRFToken
      rw [show cookiePairs (renderCookie kvs) = cookiePairsL (renderKvs kvs) from rfl,
          cookiePairsL_render kvs hg, hl]
    refine ⟨he, ?_⟩
    unfold signFollowChecked
    rw [show ({ c with Cookie := renderCookie kvs } : Config).Cookie = renderCookie kvs from rfl,
        he]

/-- C9, witnessed at concrete credential strings. -/
theorem c9_extract_witness :
    extractCSRFToken (renderCookie kvsC9) = Except.ok "tok%7C123" ∧
    extractCSRFToken (renderCookie kvsC9none) =
      Except.error ("ExtractionError: " ++ csrfFieldName ++ " not found in cookie") ∧
    signFollowChecked { cfgBark with Cookie := renderCookie kvsC9none } respAlreadyClaimed =
      (Except.error ("ExtractionError: " ++ csrfFieldName ++ " not found in cookie"), []) :=
  ⟨c9_extract.1 kvsC9 "tok%7C123" (by unfold GoodKvs GoodKey GoodVal; decide) rfl,
   (c9_extract.2 kvsC9none cfgBark respAlreadyClaimed
     (by unfold GoodKvs GoodKey GoodVal; decide) rfl).1,
   (c9_extract.2 kvsC9none cfgBark respAlreadyClaimed
     (by unfold GoodKvs GoodKey GoodVal; decide) rfl).2⟩
